import Mathlib

/-
Shallow embedding of the ledger-pruning engine from
storage/aptosdb/src/pruner/ledger_store/ledger_store_pruner.rs.

The orchestrator (`LedgerPruner`) owns a target version and a min readable
version, stages deletions from four sub-pruners plus one metadata record into
one atomic batch, commits the batch, and records progress only after a
successful commit.  The underlying database, the sub-pruner staging bodies and
the DBPruner trait's default helpers are not part of the shown source; they
are modelled from the spec and marked as such below.  Fallible operations
return `Except Nat` (error codes standing for `anyhow::Error` values); the
environment `Env` decides, per call, whether a sub-pruner staging step or a
batch commit fails, which lets theorems quantify over injected failures.
-/

namespace AptosPruner

abbrev Version := Nat

/-- The four sub-pruners coordinated by the orchestrator, in the order
`prune_inner` invokes them. -/
inductive SubPrunerId
  | transactionStore
  | writeSet
  | ledgerCounter
  | eventStore
deriving DecidableEq

/-- Pruner identity tag keying the persisted checkpoint record
(`PrunerTag::LedgerPruner`); other tags are outside this excerpt's scope. -/
inductive PrunerTag
  | ledgerPruner
deriving DecidableEq

/-- `PrunerMetadata::LatestVersion(version)`: the persisted checkpoint. -/
inductive PrunerMetadata
  | latestVersion (version : Version)
deriving DecidableEq

/-- One staged operation in a schema batch: a deletion staged by a sub-pruner
for one version of its store, or a pruner-metadata put. -/
inductive BatchEntry
  | del (sub : SubPrunerId) (version : Version)
  | putMetadata (tag : PrunerTag) (m : PrunerMetadata)
deriving DecidableEq

/-- A `SchemaBatch`: the ordered list of staged operations for one atomic
commit. -/
abbrev SchemaBatch := List BatchEntry

/-- The slice of the database the pruner touches: the metadata record stored
under the ledger pruner's tag, and the log of deletions applied by committed
batches. -/
structure DB where
  ledgerMetadata : Option PrunerMetadata
  deletedOps : List BatchEntry
deriving DecidableEq

/-- Failure environment: `subErr sub lo hi` is the error (if any) raised by
sub-pruner `sub` when asked to stage the range `[lo, hi)`, and `commitErr b`
is the error (if any) raised by `db.write_schemas` on batch `b`.  This models
the fallibility of `DBSubPruner::prune` and of the atomic batch commit. -/
structure Env where
  subErr : SubPrunerId → Version → Version → Option Nat
  commitErr : SchemaBatch → Option Nat

/-- Modelled from the spec: a sub-pruner's staging is purely additive to the
batch and covers exactly the half-open version range `[start, stop)` of its
own store — one staged deletion per version in the range. -/
def stagedDeletes (sub : SubPrunerId) (start stop : Version) : SchemaBatch :=
  (List.range' start (stop - start)).map (fun v => BatchEntry.del sub v)

/-- Modelled from the spec: `DBSubPruner::prune(batch, start, end)` — stage
deletions for `[start, stop)` into the batch, or fail (per the environment)
without committing anything. -/
def subPrune (env : Env) (sub : SubPrunerId) (db_batch : SchemaBatch)
    (start stop : Version) : Except Nat SchemaBatch :=
  match env.subErr sub start stop with
  | some e => Except.error e
  | none => Except.ok (db_batch ++ stagedDeletes sub start stop)

/-- Applying one batch entry to the database: a metadata put overwrites the
single record under its tag; a staged deletion is appended to the deletion
log. -/
def applyEntry (db : DB) : BatchEntry → DB
  | BatchEntry.putMetadata PrunerTag.ledgerPruner m =>
      { db with ledgerMetadata := some m }
  | e => { db with deletedOps := db.deletedOps ++ [e] }

/-- `db.write_schemas(batch)`: commit the whole batch atomically — on failure
(per the environment) the database is unchanged; on success every entry is
applied in order. -/
def DB.write_schemas (env : Env) (db : DB) (batch : SchemaBatch) :
    Except Nat DB :=
  match env.commitErr batch with
  | some e => Except.error e
  | none => Except.ok (batch.foldl applyEntry db)

/-- The orchestrator's state: the database handle and the two atomic version
counters.  Metrics emission is out of scope and not modelled. -/
structure LedgerPruner where
  db : DB
  target_version : Version
  min_readable_version : Version
deriving DecidableEq

namespace LedgerPruner

/-- Modelled from the spec: the DBPruner trait's default
`is_pruning_pending`, true when `min_readable_version < target_version`
(the fast-path guard of `prune`). -/
def is_pruning_pending (p : LedgerPruner) : Bool :=
  decide (p.min_readable_version < p.target_version)

/-- Modelled from the spec: the DBPruner trait's default
`get_currrent_batch_target(max_versions)` (sic), computing
`min(target_version, min_readable_version + max_versions)`. -/
def get_currrent_batch_target (p : LedgerPruner) (max_versions : Version) :
    Version :=
  min p.target_version (p.min_readable_version + max_versions)

/-- `record_progress(v)`: store `v` into the in-memory
`min_readable_version` (the telemetry gauge update is out of scope). -/
def record_progress (p : LedgerPruner) (min_readable_version : Version) :
    LedgerPruner :=
  { p with min_readable_version := min_readable_version }

/-- `set_target_version(v)`: store `v` into `target_version`. -/
def set_target_version (p : LedgerPruner) (target_version : Version) :
    LedgerPruner :=
  { p with target_version := target_version }

/-- (For tests only.) `testonly_update_min_version(v)`: back-door store into
`min_readable_version`, bypassing the durability contract. -/
def testonly_update_min_version (p : LedgerPruner) (version : Version) :
    LedgerPruner :=
  { p with min_readable_version := version }

/-- `initialize_min_readable_version`: read the persisted metadata record
under `PrunerTag::LedgerPruner`; absent metadata is not an error and maps to
version 0. -/
def initialize_min_readable_version (p : LedgerPruner) :
    Except Nat Version :=
  Except.ok
    (match p.db.ledgerMetadata with
     | none => 0
     | some (PrunerMetadata.latestVersion version) => version)

/-- `prune_inner(max_versions, db_batch)`: compute the bounded target, then
invoke the four sub-pruners in fixed order — transaction store, write set,
ledger counter, event store — each over the same range
`[min_readable_version, current_target_version)` and the same batch,
propagating the first failure. -/
def prune_inner (env : Env) (p : LedgerPruner) (max_versions : Nat)
    (db_batch : SchemaBatch) : Except Nat (Version × SchemaBatch) := do
  let min_readable_version := p.min_readable_version
  let current_target_version := p.get_currrent_batch_target max_versions
  let db_batch ← subPrune env SubPrunerId.transactionStore db_batch
    min_readable_version current_target_version
  let db_batch ← subPrune env SubPrunerId.writeSet db_batch
    min_readable_version current_target_version
  let db_batch ← subPrune env SubPrunerId.ledgerCounter db_batch
    min_readable_version current_target_version
  let db_batch ← subPrune env SubPrunerId.eventStore db_batch
    min_readable_version current_target_version
  Except.ok (current_target_version, db_batch)

/-- `prune(max_versions)`: fast-path exit when no work is pending; otherwise
stage via `prune_inner`, append the metadata checkpoint to the same batch,
commit atomically, and only then record progress.  The returned pair carries
the post-call state alongside the `Result`, mirroring that in the source all
three `?` early returns leave `self`'s fields untouched. -/
def prune (env : Env) (p : LedgerPruner) (max_versions : Nat) :
    LedgerPruner × Except Nat Version :=
  if !p.is_pruning_pending then
    (p, Except.ok p.min_readable_version)
  else
    match p.prune_inner env max_versions [] with
    | Except.error e => (p, Except.error e)
    | Except.ok (current_target_version, db_batch) =>
      let db_batch := db_batch ++
        [BatchEntry.putMetadata PrunerTag.ledgerPruner
          (PrunerMetadata.latestVersion current_target_version)]
      match p.db.write_schemas env db_batch with
      | Except.error e => (p, Except.error e)
      | Except.ok db' =>
        let p' := record_progress { p with db := db' } current_target_version
        (p', Except.ok current_target_version)

/-- `LedgerPruner::new`: both counters start at 0, then (modelled from the
spec) construction initializes `min_readable_version` from persisted
metadata, defaulting to 0 if absent; nothing is written. -/
def new (db : DB) : LedgerPruner :=
  let pruner : LedgerPruner :=
    { db := db, target_version := 0, min_readable_version := 0 }
  match pruner.initialize_min_readable_version with
  | Except.ok v => { pruner with min_readable_version := v }
  | Except.error _ => pruner

end LedgerPruner

/-- Modelled from the spec: `utils::create_ledger_pruner(ledger_db)` builds a
fresh `LedgerPruner` over the given database handle. -/
def create_ledger_pruner (ledger_db : DB) : LedgerPruner :=
  LedgerPruner.new ledger_db

/-- `prune_genesis(ledger_db, change_set)`: build a fresh orchestrator, set
its target to 1, and stage the prune of `[0, 1)` into the caller-supplied
change set's batch via `prune_inner` — no metadata entry, no commit, no
progress recording.  Returns the grown batch. -/
def prune_genesis (env : Env) (ledger_db : DB) (change_set : SchemaBatch) :
    Except Nat SchemaBatch := do
  let target_version := 1
  let max_version := 1
  let ledger_pruner := create_ledger_pruner ledger_db
  let ledger_pruner := ledger_pruner.set_target_version target_version
  let (_, batch) ← ledger_pruner.prune_inner env max_version change_set
  Except.ok batch

/-- Recognizer for metadata entries in a batch (to count checkpoint records
staged per commit). -/
def isMetadataEntry : BatchEntry → Bool
  | BatchEntry.putMetadata _ _ => true
  | BatchEntry.del _ _ => false

/-! Concrete fixtures used by witness theorems. -/

/-- A fresh database: no persisted checkpoint, nothing deleted. -/
def db0 : DB := { ledgerMetadata := none, deletedOps := [] }

/-- A database holding a persisted checkpoint at version 5. -/
def dbCkpt5 : DB :=
  { ledgerMetadata := some (PrunerMetadata.latestVersion 5), deletedOps := [] }

/-- Environment in which every staging step and every commit succeeds. -/
def envOk : Env :=
  { subErr := fun _ _ _ => none, commitErr := fun _ => none }

/-- Environment in which staging succeeds but every batch commit fails with
error code 7 (the injected-commit-failure scenario). -/
def envCommitFail : Env :=
  { subErr := fun _ _ _ => none, commitErr := fun _ => some 7 }

/-- A pruner over a fresh database with pending work: `min = 0`,
`target = 100`. -/
def p0 : LedgerPruner :=
  { db := db0, target_version := 100, min_readable_version := 0 }

/-! Helper lemmas shared by the claim theorems. -/

theorem subPrune_of_none {env : Env} {sub : SubPrunerId} {lo hi : Version}
    (b : SchemaBatch) (h : env.subErr sub lo hi = none) :
    subPrune env sub b lo hi = Except.ok (b ++ stagedDeletes sub lo hi) := by
  simp [subPrune, h]

theorem subPrune_of_some {env : Env} {sub : SubPrunerId} {lo hi : Version}
    {e : Nat} (b : SchemaBatch) (h : env.subErr sub lo hi = some e) :
    subPrune env sub b lo hi = Except.error e := by
  simp [subPrune, h]

theorem prune_inner_all_ok (env : Env) (p : LedgerPruner) (n : Nat)
    (b : SchemaBatch)
    (h1 : env.subErr SubPrunerId.transactionStore p.min_readable_version
      (p.get_currrent_batch_target n) = none)
    (h2 : env.subErr SubPrunerId.writeSet p.min_readable_version
      (p.get_currrent_batch_target n) = none)
    (h3 : env.subErr SubPrunerId.ledgerCounter p.min_readable_version
      (p.get_currrent_batch_target n) = none)
    (h4 : env.subErr SubPrunerId.eventStore p.min_readable_version
      (p.get_currrent_batch_target n) = none) :
    p.prune_inner env n b = Except.ok (p.get_currrent_batch_target n,
      b ++ stagedDeletes SubPrunerId.transactionStore p.min_readable_version
            (p.get_currrent_batch_target n)
        ++ stagedDeletes SubPrunerId.writeSet p.min_readable_version
            (p.get_currrent_batch_target n)
        ++ stagedDeletes SubPrunerId.ledgerCounter p.min_readable_version
            (p.get_currrent_batch_target n)
        ++ stagedDeletes SubPrunerId.eventStore p.min_readable_version
            (p.get_currrent_batch_target n)) := by
  simp only [LedgerPruner.prune_inner, subPrune_of_none _ h1,
    subPrune_of_none _ h2, subPrune_of_none _ h3, subPrune_of_none _ h4,
    bind, Except.bind]

theorem prune_inner_err1 (env : Env) (p : LedgerPruner) (n : Nat)
    (b : SchemaBatch) {e : Nat}
    (h1 : env.subErr SubPrunerId.transactionStore p.min_readable_version
      (p.get_currrent_batch_target n) = some e) :
    p.prune_inner env n b = Except.error e := by
  simp only [LedgerPruner.prune_inner, subPrune_of_some _ h1, bind,
    Except.bind]

theorem prune_inner_err2 (env : Env) (p : LedgerPruner) (n : Nat)
    (b : SchemaBatch) {e : Nat}
    (h1 : env.subErr SubPrunerId.transactionStore p.min_readable_version
      (p.get_currrent_batch_target n) = none)
    (h2 : env.subErr SubPrunerId.writeSet p.min_readable_version
      (p.get_currrent_batch_target n) = some e) :
    p.prune_inner env n b = Except.error e := by
  simp only [LedgerPruner.prune_inner, subPrune_of_none _ h1,
    subPrune_of_some _ h2, bind, Except.bind]

theorem prune_inner_err3 (env : Env) (p : LedgerPruner) (n : Nat)
    (b : SchemaBatch) {e : Nat}
    (h1 : env.subErr SubPrunerId.transactionStore p.min_readable_version
      (p.get_currrent_batch_target n) = none)
    (h2 : env.subErr SubPrunerId.writeSet p.min_readable_version
      (p.get_currrent_batch_target n) = none)
    (h3 : env.subErr SubPrunerId.ledgerCounter p.min_readable_version
      (p.get_currrent_batch_target n) = some e) :
    p.prune_inner env n b = Except.error e := by
  simp only [LedgerPruner.prune_inner, subPrune_of_none _ h1,
    subPrune_of_none _ h2, subPrune_of_some _ h3, bind, Except.bind]

theorem prune_inner_err4 (env : Env) (p : LedgerPruner) (n : Nat)
    (b : SchemaBatch) {e : Nat}
    (h1 : env.subErr SubPrunerId.transactionStore p.min_readable_version
      (p.get_currrent_batch_target n) = none)
    (h2 : env.subErr SubPrunerId.writeSet p.min_readable_version
      (p.get_currrent_batch_target n) = none)
    (h3 : env.subErr SubPrunerId.ledgerCounter p.min_readable_version
      (p.get_currrent_batch_target n) = none)
    (h4 : env.subErr SubPrunerId.eventStore p.min_readable_version
      (p.get_currrent_batch_target n) = some e) :
    p.prune_inner env n b = Except.error e := by
  simp only [LedgerPruner.prune_inner, subPrune_of_none _ h1,
    subPrune_of_none _ h2, subPrune_of_none _ h3, subPrune_of_some _ h4,
    bind, Except.bind]

theorem prune_inner_ok_elim (env : Env) (p : LedgerPruner) (n : Nat)
    (b bb : SchemaBatch) (t : Version)
    (h : p.prune_inner env n b = Except.ok (t, bb)) :
    t = p.get_currrent_batch_target n ∧
    env.subErr SubPrunerId.transactionStore p.min_readable_version t = none ∧
    env.subErr SubPrunerId.writeSet p.min_readable_version t = none ∧
    env.subErr SubPrunerId.ledgerCounter p.min_readable_version t = none ∧
    env.subErr SubPrunerId.eventStore p.min_readable_version t = none ∧
    bb = b
      ++ stagedDeletes SubPrunerId.transactionStore p.min_readable_version t
      ++ stagedDeletes SubPrunerId.writeSet p.min_readable_version t
      ++ stagedDeletes SubPrunerId.ledgerCounter p.min_readable_version t
      ++ stagedDeletes SubPrunerId.eventStore p.min_readable_version t := by
  cases h1 : env.subErr SubPrunerId.transactionStore p.min_readable_version
      (p.get_currrent_batch_target n) with
  | some e => rw [prune_inner_err1 env p n b h1] at h; simp at h
  | none =>
    cases h2 : env.subErr SubPrunerId.writeSet p.min_readable_version
        (p.get_currrent_batch_target n) with
    | some e => rw [prune_inner_err2 env p n b h1 h2] at h; simp at h
    | none =>
      cases h3 : env.subErr SubPrunerId.ledgerCounter p.min_readable_version
          (p.get_currrent_batch_target n) with
      | some e => rw [prune_inner_err3 env p n b h1 h2 h3] at h; simp at h
      | none =>
        cases h4 : env.subErr SubPrunerId.eventStore p.min_readable_version
            (p.get_currrent_batch_target n) with
        | some e => rw [prune_inner_err4 env p n b h1 h2 h3 h4] at h; simp at h
        | none =>
          rw [prune_inner_all_ok env p n b h1 h2 h3 h4] at h
          simp only [Except.ok.injEq, Prod.mk.injEq] at h
          obtain ⟨ht, hb⟩ := h
          subst ht
          exact ⟨rfl, h1, h2, h3, h4, hb.symm⟩

theorem prune_of_not_pending (env : Env) (p : LedgerPruner) (n : Nat)
    (h : p.target_version ≤ p.min_readable_version) :
    LedgerPruner.prune env p n = (p, Except.ok p.min_readable_version) := by
  have hnot : ¬ (p.min_readable_version < p.target_version) := Nat.not_lt.mpr h
  simp [LedgerPruner.prune, LedgerPruner.is_pruning_pending, hnot]

theorem foldl_applyEntry_metadata_last (db : DB) (b : SchemaBatch)
    (m : PrunerMetadata) :
    ((b ++ [BatchEntry.putMetadata PrunerTag.ledgerPruner m]).foldl
      applyEntry db).ledgerMetadata = some m := by
  rw [List.foldl_append]
  rfl

theorem stagedDeletes_no_metadata (sub : SubPrunerId) (lo hi : Version) :
    (stagedDeletes sub lo hi).countP isMetadataEntry = 0 := by
  rw [List.countP_eq_zero]
  intro a ha
  simp only [stagedDeletes, List.mem_map] at ha
  obtain ⟨v, _, rfl⟩ := ha
  simp [isMetadataEntry]

/-! Claim theorems. -/

/-- C4: for every `n ≥ 0`, calling `prune(n)` when
`min_readable_version ≥ target_version` returns `Ok(min_readable_version)`
unchanged, stages nothing, commits nothing, and leaves all state (both
counters and the database) unchanged — the no-op fast path, not an error. -/
theorem prune_noop_fast_path (env : Env) (p : LedgerPruner) (n : Nat)
    (h : p.target_version ≤ p.min_readable_version) :
    LedgerPruner.prune env p n = (p, Except.ok p.min_readable_version) :=
  prune_of_not_pending env p n h

theorem prune_noop_fast_path_witness :
    LedgerPruner.prune envOk
      { db := db0, target_version := 7, min_readable_version := 7 } 5 =
      ({ db := db0, target_version := 7, min_readable_version := 7 },
        Except.ok 7) :=
  prune_noop_fast_path envOk
    { db := db0, target_version := 7, min_readable_version := 7 } 5
    (by decide)

/-- C1: every `prune(max_versions)` call in which the atomic batch commit
(`db.write_schemas`) fails returns that error and leaves the in-memory state
unchanged: the post-call pruner equals the pre-call pruner, so both
`min_readable_version` and `target_version` are untouched. -/
theorem prune_commit_failure_leaves_state_unchanged (env : Env)
    (p : LedgerPruner) (n : Nat) (t : Version) (b : SchemaBatch) (e : Nat)
    (hpend : p.min_readable_version < p.target_version)
    (hinner : p.prune_inner env n [] = Except.ok (t, b))
    (hfail : env.commitErr (b ++ [BatchEntry.putMetadata PrunerTag.ledgerPruner
      (PrunerMetadata.latestVersion t)]) = some e) :
    LedgerPruner.prune env p n = (p, Except.error e) := by
  simp [LedgerPruner.prune, LedgerPruner.is_pruning_pending, hpend, hinner,
    DB.write_schemas, hfail]

theorem prune_commit_failure_leaves_state_unchanged_witness :
    LedgerPruner.prune envCommitFail p0 3 = (p0, Except.error 7) :=
  prune_commit_failure_leaves_state_unchanged envCommitFail p0 3 3
    (stagedDeletes SubPrunerId.transactionStore 0 3
      ++ stagedDeletes SubPrunerId.writeSet 0 3
      ++ stagedDeletes SubPrunerId.ledgerCounter 0 3
      ++ stagedDeletes SubPrunerId.eventStore 0 3) 7
    (by decide) (by rfl) (by rfl)

/-- C2: every `prune(max_versions)` call with pending work that succeeds
returns `min(target_version, min_readable_version + max_versions)`, and the
post-call `min_readable_version` equals that returned value — the pruner
advances by exactly `min(max_versions, target_version -
min_readable_version)`, never more. -/
theorem prune_returns_bounded_target_and_advances (env : Env)
    (p : LedgerPruner) (n : Nat) (v : Version)
    (hpend : p.min_readable_version < p.target_version)
    (hok : (LedgerPruner.prune env p n).2 = Except.ok v) :
    v = min p.target_version (p.min_readable_version + n) ∧
    (LedgerPruner.prune env p n).1.min_readable_version = v := by
  cases hpi : p.prune_inner env n [] with
  | error e =>
    rw [LedgerPruner.prune] at hok
    simp [LedgerPruner.is_pruning_pending, hpend, hpi] at hok
  | ok tb =>
    obtain ⟨t, b⟩ := tb
    have ht := (prune_inner_ok_elim env p n [] b t hpi).1
    cases hc : env.commitErr (b ++ [BatchEntry.putMetadata
        PrunerTag.ledgerPruner (PrunerMetadata.latestVersion t)]) with
    | some e =>
      rw [LedgerPruner.prune] at hok
      simp [LedgerPruner.is_pruning_pending, hpend, hpi, DB.write_schemas,
        hc] at hok
    | none =>
      have hpr : LedgerPruner.prune env p n =
          (LedgerPruner.record_progress
            { p with db := (b ++ [BatchEntry.putMetadata PrunerTag.ledgerPruner
              (PrunerMetadata.latestVersion t)]).foldl applyEntry p.db } t,
           Except.ok t) := by
        simp [LedgerPruner.prune, LedgerPruner.is_pruning_pending, hpend,
          hpi, DB.write_schemas, hc]
      rw [hpr] at hok
      simp only [Except.ok.injEq] at hok
      subst hok
      refine ⟨ht, ?_⟩
      rw [hpr]
      rfl

theorem prune_returns_bounded_target_and_advances_witness :
    (30 : Version) = min 100 (0 + 30) ∧
    (LedgerPruner.prune envOk p0 30).1.min_readable_version = 30 :=
  prune_returns_bounded_target_and_advances envOk p0 30 30
    (by decide) (by rfl)

/-- C3 counterexample: the invariant `min_readable_version ≤ target_version`
fails immediately after construction when a nonzero checkpoint is persisted:
`LedgerPruner::new` over a database with checkpoint 5 yields
`min_readable_version = 5` but `target_version = 0`. -/
theorem new_from_checkpoint_violates_min_le_target :
    ¬ ((LedgerPruner.new dbCkpt5).min_readable_version ≤
        (LedgerPruner.new dbCkpt5).target_version) := by
  decide

/-- C3 amended: excluding `testonly_update_min_version`,
`min_readable_version` is monotonically non-decreasing — every `prune` call
leaves it equal or larger, and `set_target_version` never changes it — and
whenever a `prune` call changes it, the new value has just been durably
committed: the post-call database's metadata record is exactly
`LatestVersion` of the new `min_readable_version` (record_progress runs only
in the successful-commit branch).  The companion invariant
`min_readable_version ≤ target_version` does NOT hold at every point: it can
be violated between construction and the first `set_target_version` when a
nonzero checkpoint is persisted. -/
theorem prune_monotone_and_durably_recorded (env : Env) (p : LedgerPruner)
    (n : Nat) :
    p.min_readable_version ≤
      (LedgerPruner.prune env p n).1.min_readable_version ∧
    ((LedgerPruner.prune env p n).1.min_readable_version ≠
        p.min_readable_version →
      (LedgerPruner.prune env p n).1.db.ledgerMetadata =
        some (PrunerMetadata.latestVersion
          (LedgerPruner.prune env p n).1.min_readable_version)) ∧
    (∀ v, (p.set_target_version v).min_readable_version =
      p.min_readable_version) := by
  by_cases hpend : p.min_readable_version < p.target_version
  · cases hpi : p.prune_inner env n [] with
    | error e =>
      have hpr : LedgerPruner.prune env p n = (p, Except.error e) := by
        simp [LedgerPruner.prune, LedgerPruner.is_pruning_pending, hpend, hpi]
      rw [hpr]
      exact ⟨Nat.le_refl _, fun h => absurd rfl h, fun v => rfl⟩
    | ok tb =>
      obtain ⟨t, b⟩ := tb
      have ht := (prune_inner_ok_elim env p n [] b t hpi).1
      cases hc : env.commitErr (b ++ [BatchEntry.putMetadata
          PrunerTag.ledgerPruner (PrunerMetadata.latestVersion t)]) with
      | some e =>
        have hpr : LedgerPruner.prune env p n = (p, Except.error e) := by
          simp [LedgerPruner.prune, LedgerPruner.is_pruning_pending, hpend,
            hpi, DB.write_schemas, hc]
        rw [hpr]
        exact ⟨Nat.le_refl _, fun h => absurd rfl h, fun v => rfl⟩
      | none =>
        have hpr : LedgerPruner.prune env p n =
            (LedgerPruner.record_progress
              { p with db := (b ++ [BatchEntry.putMetadata
                PrunerTag.ledgerPruner
                (PrunerMetadata.latestVersion t)]).foldl applyEntry p.db } t,
             Except.ok t) := by
          simp [LedgerPruner.prune, LedgerPruner.is_pruning_pending, hpend,
            hpi, DB.write_schemas, hc]
        rw [hpr]
        refine ⟨?_, ?_, fun v => rfl⟩
        · show p.min_readable_version ≤ t
          rw [ht]
          exact Nat.le_min.mpr ⟨Nat.le_of_lt hpend, Nat.le_add_right _ _⟩
        · intro _
          exact foldl_applyEntry_metadata_last p.db b
            (PrunerMetadata.latestVersion t)
  · have hpr := prune_of_not_pending env p n (Nat.not_lt.mp hpend)
    rw [hpr]
    exact ⟨Nat.le_refl _, fun h => absurd rfl h, fun v => rfl⟩

theorem prune_monotone_and_durably_recorded_witness :
    (LedgerPruner.prune envOk p0 3).1.db.ledgerMetadata =
      some (PrunerMetadata.latestVersion
        (LedgerPruner.prune envOk p0 3).1.min_readable_version) :=
  (prune_monotone_and_durably_recorded envOk p0 3).2.1 (by decide)

/-- C5: every successful `prune` call with pending work commits one batch
holding the four sub-pruners' staged deletions together with exactly one
metadata entry — `PrunerMetadata::LatestVersion(current_target_version)`
under `PrunerTag::LedgerPruner` — and after the commit the single record
under that tag has been overwritten to that checkpoint. -/
theorem prune_commits_single_overwritten_metadata_record (env : Env)
    (p : LedgerPruner) (n : Nat) (t : Version) (b : SchemaBatch)
    (hpend : p.min_readable_version < p.target_version)
    (hinner : p.prune_inner env n [] = Except.ok (t, b))
    (hcommit : env.commitErr (b ++ [BatchEntry.putMetadata
      PrunerTag.ledgerPruner (PrunerMetadata.latestVersion t)]) = none) :
    (b ++ [BatchEntry.putMetadata PrunerTag.ledgerPruner
        (PrunerMetadata.latestVersion t)]).countP isMetadataEntry = 1 ∧
    b = stagedDeletes SubPrunerId.transactionStore p.min_readable_version t
      ++ stagedDeletes SubPrunerId.writeSet p.min_readable_version t
      ++ stagedDeletes SubPrunerId.ledgerCounter p.min_readable_version t
      ++ stagedDeletes SubPrunerId.eventStore p.min_readable_version t ∧
    (LedgerPruner.prune env p n).1.db.ledgerMetadata =
      some (PrunerMetadata.latestVersion t) ∧
    (LedgerPruner.prune env p n).2 = Except.ok t := by
  obtain ⟨ht, _, _, _, _, hb⟩ := prune_inner_ok_elim env p n [] b t hinner
  have hbcount : b.countP isMetadataEntry = 0 := by
    rw [hb]
    simp [List.countP_append, stagedDeletes_no_metadata]
  have hpr : LedgerPruner.prune env p n =
      (LedgerPruner.record_progress
        { p with db := (b ++ [BatchEntry.putMetadata PrunerTag.ledgerPruner
          (PrunerMetadata.latestVersion t)]).foldl applyEntry p.db } t,
       Except.ok t) := by
    simp [LedgerPruner.prune, LedgerPruner.is_pruning_pending, hpend,
      hinner, DB.write_schemas, hcommit]
  refine ⟨?_, ?_, ?_, ?_⟩
  · rw [List.countP_append, hbcount]
    rfl
  · rw [hb]
    rfl
  · rw [hpr]
    exact foldl_applyEntry_metadata_last p.db b (PrunerMetadata.latestVersion t)
  · rw [hpr]

theorem prune_commits_single_overwritten_metadata_record_witness :
    ((stagedDeletes SubPrunerId.transactionStore 0 1
        ++ stagedDeletes SubPrunerId.writeSet 0 1
        ++ stagedDeletes SubPrunerId.ledgerCounter 0 1
        ++ stagedDeletes SubPrunerId.eventStore 0 1)
      ++ [BatchEntry.putMetadata PrunerTag.ledgerPruner
        (PrunerMetadata.latestVersion 1)]).countP isMetadataEntry = 1 ∧
    (stagedDeletes SubPrunerId.transactionStore 0 1
        ++ stagedDeletes SubPrunerId.writeSet 0 1
        ++ stagedDeletes SubPrunerId.ledgerCounter 0 1
        ++ stagedDeletes SubPrunerId.eventStore 0 1) =
      stagedDeletes SubPrunerId.transactionStore 0 1
        ++ stagedDeletes SubPrunerId.writeSet 0 1
        ++ stagedDeletes SubPrunerId.ledgerCounter 0 1
        ++ stagedDeletes SubPrunerId.eventStore 0 1 ∧
    (LedgerPruner.prune envOk p0 1).1.db.ledgerMetadata =
      some (PrunerMetadata.latestVersion 1) ∧
    (LedgerPruner.prune envOk p0 1).2 = Except.ok 1 :=
  prune_commits_single_overwritten_metadata_record envOk p0 1 1
    (stagedDeletes SubPrunerId.transactionStore 0 1
      ++ stagedDeletes SubPrunerId.writeSet 0 1
      ++ stagedDeletes SubPrunerId.ledgerCounter 0 1
      ++ stagedDeletes SubPrunerId.eventStore 0 1)
    (by decide) (by rfl) (by rfl)

/-- C6: `prune_genesis` against a fresh database (no persisted checkpoint)
grows the caller-supplied change set's batch by exactly one staged deletion
of version 0 per sub-pruner — the range `[0, 1)` — in the fixed sub-pruner
order, stages no pruner-metadata entry (the metadata count of the batch is
unchanged), and, never invoking `write_schemas` or `record_progress`, alters
no database state. -/
theorem prune_genesis_stages_exactly_version_zero (env : Env) (db : DB)
    (cs b : SchemaBatch)
    (hfresh : db.ledgerMetadata = none)
    (hok : prune_genesis env db cs = Except.ok b) :
    b = cs ++ [BatchEntry.del SubPrunerId.transactionStore 0,
      BatchEntry.del SubPrunerId.writeSet 0,
      BatchEntry.del SubPrunerId.ledgerCounter 0,
      BatchEntry.del SubPrunerId.eventStore 0] ∧
    b.countP isMetadataEntry = cs.countP isMetadataEntry := by
  have hp : (create_ledger_pruner db).set_target_version 1 =
      { db := db, target_version := 1, min_readable_version := 0 } := by
    simp [create_ledger_pruner, LedgerPruner.new,
      LedgerPruner.initialize_min_readable_version, hfresh,
      LedgerPruner.set_target_version]
  rw [prune_genesis] at hok
  simp only [bind, Except.bind, hp] at hok
  cases hpi : LedgerPruner.prune_inner env
      { db := db, target_version := 1, min_readable_version := 0 } 1 cs with
  | error e => rw [hpi] at hok; simp at hok
  | ok tb =>
    obtain ⟨t, bb⟩ := tb
    rw [hpi] at hok
    simp only [Except.ok.injEq] at hok
    subst hok
    obtain ⟨ht, _, _, _, _, hbb⟩ := prune_inner_ok_elim env
      { db := db, target_version := 1, min_readable_version := 0 } 1 cs bb
      t hpi
    have ht1 : t = 1 := ht
    subst ht1
    constructor
    · rw [hbb]
      simp [stagedDeletes, List.range']
    · rw [hbb]
      simp [List.countP_append, stagedDeletes_no_metadata]

theorem prune_genesis_stages_exactly_version_zero_witness :
    prune_genesis envOk db0 [] =
      Except.ok [BatchEntry.del SubPrunerId.transactionStore 0,
        BatchEntry.del SubPrunerId.writeSet 0,
        BatchEntry.del SubPrunerId.ledgerCounter 0,
        BatchEntry.del SubPrunerId.eventStore 0] ∧
    ([BatchEntry.del SubPrunerId.transactionStore 0,
      BatchEntry.del SubPrunerId.writeSet 0,
      BatchEntry.del SubPrunerId.ledgerCounter 0,
      BatchEntry.del SubPrunerId.eventStore 0] : SchemaBatch).countP
        isMetadataEntry = ([] : SchemaBatch).countP isMetadataEntry := by
  have h := prune_genesis_stages_exactly_version_zero envOk db0 []
    [BatchEntry.del SubPrunerId.transactionStore 0,
      BatchEntry.del SubPrunerId.writeSet 0,
      BatchEntry.del SubPrunerId.ledgerCounter 0,
      BatchEntry.del SubPrunerId.eventStore 0] (by rfl) (by rfl)
  exact ⟨by rfl, h.2⟩

/-- C7: `prune_inner` consults the four sub-pruners in the fixed order
transaction store, write set, ledger counter, event store, each exactly once
over the identical half-open range `[min_readable_version,
current_target_version)` and the same shared batch — on full success the
batch grows by exactly the four staged lists in that order — and the first
sub-pruner failure aborts the whole call with that error, independent of the
behavior of any later sub-pruner. -/
theorem prune_inner_fixed_order_and_first_error (env : Env)
    (p : LedgerPruner) (n : Nat) (b : SchemaBatch) :
    (∀ e, env.subErr SubPrunerId.transactionStore p.min_readable_version
        (p.get_currrent_batch_target n) = some e →
      p.prune_inner env n b = Except.error e) ∧
    (∀ e, env.subErr SubPrunerId.transactionStore p.min_readable_version
        (p.get_currrent_batch_target n) = none →
      env.subErr SubPrunerId.writeSet p.min_readable_version
        (p.get_currrent_batch_target n) = some e →
      p.prune_inner env n b = Except.error e) ∧
    (∀ e, env.subErr SubPrunerId.transactionStore p.min_readable_version
        (p.get_currrent_batch_target n) = none →
      env.subErr SubPrunerId.writeSet p.min_readable_version
        (p.get_currrent_batch_target n) = none →
      env.subErr SubPrunerId.ledgerCounter p.min_readable_version
        (p.get_currrent_batch_target n) = some e →
      p.prune_inner env n b = Except.error e) ∧
    (∀ e, env.subErr SubPrunerId.transactionStore p.min_readable_version
        (p.get_currrent_batch_target n) = none →
      env.subErr SubPrunerId.writeSet p.min_readable_version
        (p.get_currrent_batch_target n) = none →
      env.subErr SubPrunerId.ledgerCounter p.min_readable_version
        (p.get_currrent_batch_target n) = none →
      env.subErr SubPrunerId.eventStore p.min_readable_version
        (p.get_currrent_batch_target n) = some e →
      p.prune_inner env n b = Except.error e) ∧
    (env.subErr SubPrunerId.transactionStore p.min_readable_version
        (p.get_currrent_batch_target n) = none →
      env.subErr SubPrunerId.writeSet p.min_readable_version
        (p.get_currrent_batch_target n) = none →
      env.subErr SubPrunerId.ledgerCounter p.min_readable_version
        (p.get_currrent_batch_target n) = none →
      env.subErr SubPrunerId.eventStore p.min_readable_version
        (p.get_currrent_batch_target n) = none →
      p.prune_inner env n b = Except.ok (p.get_currrent_batch_target n,
        b ++ stagedDeletes SubPrunerId.transactionStore
              p.min_readable_version (p.get_currrent_batch_target n)
          ++ stagedDeletes SubPrunerId.writeSet
              p.min_readable_version (p.get_currrent_batch_target n)
          ++ stagedDeletes SubPrunerId.ledgerCounter
              p.min_readable_version (p.get_currrent_batch_target n)
          ++ stagedDeletes SubPrunerId.eventStore
              p.min_readable_version (p.get_currrent_batch_target n))) :=
  ⟨fun _ h1 => prune_inner_err1 env p n b h1,
   fun _ h1 h2 => prune_inner_err2 env p n b h1 h2,
   fun _ h1 h2 h3 => prune_inner_err3 env p n b h1 h2 h3,
   fun _ h1 h2 h3 h4 => prune_inner_err4 env p n b h1 h2 h3 h4,
   fun h1 h2 h3 h4 => prune_inner_all_ok env p n b h1 h2 h3 h4⟩

/-- Environment in which the write-set sub-pruner fails with code 3 and the
event-store sub-pruner would fail with code 9, used to witness that
`prune_inner` surfaces the first failure in order and never reaches the
later sub-pruners. -/
def envWsFail : Env :=
  { subErr := fun sub _ _ =>
      match sub with
      | SubPrunerId.writeSet => some 3
      | SubPrunerId.eventStore => some 9
      | _ => none,
    commitErr := fun _ => none }

theorem prune_inner_fixed_order_and_first_error_witness :
    LedgerPruner.prune_inner envWsFail p0 2 [] = Except.error 3 :=
  (prune_inner_fixed_order_and_first_error envWsFail p0 2 []).2.1 3
    (by rfl) (by rfl)

/-- C8: `initialize_min_readable_version` returns 0 when no metadata record
exists under the `LedgerPruner` tag (metadata-absent is not an error) and
returns `V` when `PrunerMetadata::LatestVersion(V)` is persisted; a freshly
constructed orchestrator over the same database therefore resumes with
`min_readable_version = V` (or 0), and construction performs no writes: the
new instance's database equals the given one. -/
theorem initialize_min_readable_version_resumes_checkpoint (db : DB) :
    (LedgerPruner.new db).db = db ∧
    (db.ledgerMetadata = none →
      (LedgerPruner.new db).initialize_min_readable_version = Except.ok 0 ∧
      (LedgerPruner.new db).min_readable_version = 0) ∧
    (∀ V, db.ledgerMetadata = some (PrunerMetadata.latestVersion V) →
      (LedgerPruner.new db).initialize_min_readable_version = Except.ok V ∧
      (LedgerPruner.new db).min_readable_version = V) := by
  refine ⟨?_, ?_, ?_⟩
  · simp [LedgerPruner.new, LedgerPruner.initialize_min_readable_version]
  · intro h
    simp [LedgerPruner.new, LedgerPruner.initialize_min_readable_version, h]
  · intro V h
    simp [LedgerPruner.new, LedgerPruner.initialize_min_readable_version, h]

theorem initialize_min_readable_version_resumes_checkpoint_witness :
    (LedgerPruner.new dbCkpt5).initialize_min_readable_version =
      Except.ok 5 ∧
    (LedgerPruner.new dbCkpt5).min_readable_version = 5 :=
  (initialize_min_readable_version_resumes_checkpoint dbCkpt5).2.2 5 (by rfl)

/-- C9: with pending work, `prune(0)` does not take the fast path: the batch
target collapses to `min_readable_version`, the four sub-pruners stage the
empty range `[min, min)`, yet a batch holding only the metadata record for
the unchanged checkpoint is still committed — the post-call database's
metadata record is rewritten to `LatestVersion(min_readable_version)` while
`min_readable_version` itself and the return value stay unchanged. -/
theorem prune_zero_budget_still_commits (env : Env) (p : LedgerPruner)
    (hpend : p.min_readable_version < p.target_version)
    (hsub : ∀ sub, env.subErr sub p.min_readable_version
      p.min_readable_version = none)
    (hcommit : env.commitErr [BatchEntry.putMetadata PrunerTag.ledgerPruner
      (PrunerMetadata.latestVersion p.min_readable_version)] = none) :
    LedgerPruner.prune env p 0 =
      ({ p with db := { p.db with ledgerMetadata := some (PrunerMetadata.latestVersion p.min_readable_version) } },
       Except.ok p.min_readable_version) := by
  have htarget : p.get_currrent_batch_target 0 = p.min_readable_version := by
    simp [LedgerPruner.get_currrent_batch_target, Nat.min_eq_right,
      Nat.le_of_lt hpend]
  have hstaged : ∀ sub, stagedDeletes sub p.min_readable_version
      p.min_readable_version = [] := by
    intro sub
    simp [stagedDeletes]
  have hpi : p.prune_inner env 0 [] =
      Except.ok (p.min_readable_version, []) := by
    have h := prune_inner_all_ok env p 0 []
      (by rw [htarget]; exact hsub _) (by rw [htarget]; exact hsub _)
      (by rw [htarget]; exact hsub _) (by rw [htarget]; exact hsub _)
    rw [htarget] at h
    simpa [hstaged] using h
  simp only [LedgerPruner.prune, LedgerPruner.is_pruning_pending, hpend,
    decide_True, Bool.not_true, Bool.false_eq_true, if_false, hpi,
    List.nil_append, DB.write_schemas, hcommit, List.foldl_cons,
    List.foldl_nil, applyEntry, LedgerPruner.record_progress]

theorem prune_zero_budget_still_commits_witness :
    LedgerPruner.prune envOk p0 0 =
      ({ p0 with db := { db0 with ledgerMetadata := some (PrunerMetadata.latestVersion 0) } },
       Except.ok 0) :=
  prune_zero_budget_still_commits envOk p0 (by decide)
    (fun _ => rfl) (by rfl)

/-- C10: immediately after `LedgerPruner::new` the target version is 0
regardless of the persisted checkpoint, so until the first
`set_target_version` every `prune(n)` takes the no-op fast path — returning
the initialized `min_readable_version` with all state (database included)
unchanged — and a nonzero persisted checkpoint `V` yields a fresh instance
with `min_readable_version = V > target_version = 0`. -/
theorem new_starts_with_target_zero_fast_path (db : DB) (env : Env)
    (n : Nat) :
    (LedgerPruner.new db).target_version = 0 ∧
    LedgerPruner.prune env (LedgerPruner.new db) n =
      (LedgerPruner.new db,
        Except.ok (LedgerPruner.new db).min_readable_version) ∧
    (∀ V, db.ledgerMetadata = some (PrunerMetadata.latestVersion V) →
      0 < V →
      (LedgerPruner.new db).target_version <
        (LedgerPruner.new db).min_readable_version) := by
  have htarget : (LedgerPruner.new db).target_version = 0 := by
    simp [LedgerPruner.new, LedgerPruner.initialize_min_readable_version]
  refine ⟨htarget, ?_, ?_⟩
  · exact prune_of_not_pending env (LedgerPruner.new db) n
      (htarget ▸ Nat.zero_le _)
  · intro V h hV
    have hmin : (LedgerPruner.new db).min_readable_version = V := by
      simp [LedgerPruner.new, LedgerPruner.initialize_min_readable_version, h]
    rw [htarget, hmin]
    exact hV

theorem new_starts_with_target_zero_fast_path_witness :
    (LedgerPruner.new dbCkpt5).target_version = 0 ∧
    LedgerPruner.prune envOk (LedgerPruner.new dbCkpt5) 9 =
      (LedgerPruner.new dbCkpt5, Except.ok 5) ∧
    (LedgerPruner.new dbCkpt5).target_version <
      (LedgerPruner.new dbCkpt5).min_readable_version := by
  have h := new_starts_with_target_zero_fast_path dbCkpt5 envOk 9
  exact ⟨h.1, h.2.1, h.2.2 5 (by rfl) (by decide)⟩

end AptosPruner
